import Mathlib

/-!
Verification of the transfer action of `plugin-starknet`
(`src/packages/plugin-starknet/src/actions/transfer.ts`), against the
natural-language specification of its transfer-intent resolver.

The embedding models:
* JavaScript IEEE-754 binary64 ("double") arithmetic as exact rationals
  together with a round-to-nearest, ties-to-even rounding function `fl`;
* the content object `TransferContent` at its TypeScript-declared field
  types (absent optional field = `undefined` = `none`);
* the validator `isTransferContent` and the amount-conversion /
  recipient-resolution segment of the action handler.
-/

namespace StarknetTransfer

/-! ## A model of JavaScript numbers (IEEE-754 binary64)

A JavaScript number is either a finite double, `NaN`, or an infinity.
A finite double is represented by the exact rational value it denotes.
`fl` rounds an exact rational to the nearest binary64 value
(round-to-nearest, ties to even), returning an infinity on overflow.
Subnormal values (magnitude below `2 ^ (-1022)`) are rounded with the
fixed subnormal unit `2 ^ (-1074)`, as binary64 prescribes. -/

/-- A JavaScript number: a finite binary64 value (represented by the exact
rational it denotes), `NaN`, or a signed infinity. -/
inductive JSNum where
  | finite (q : ℚ)
  | nan
  | inf
  | negInf
deriving DecidableEq

/-- Round a rational to the nearest integer, ties to even. -/
def roundNE (x : ℚ) : ℤ :=
  let f := ⌊x⌋
  let r := x - (f : ℚ)
  if r < 1/2 then f
  else if 1/2 < r then f + 1
  else if f % 2 = 0 then f else f + 1

/-- The binary64 rounding function: round an exact rational to the nearest
representable double (round-to-nearest, ties to even), with overflow to the
infinities at magnitude `2 ^ 1024` and the subnormal regime below
`2 ^ (-1022)` handled by clamping the unit exponent at `-1074`. -/
def fl (q : ℚ) : JSNum :=
  if q = 0 then .finite 0
  else
    let e : ℤ := Int.log 2 |q|
    let k : ℤ := max (e - 52) (-1074)
    let m : ℤ := roundNE (q * (2 : ℚ) ^ (-k))
    let r : ℚ := (m : ℚ) * (2 : ℚ) ^ k
    if |r| < (2 : ℚ) ^ (1024 : ℤ) then .finite r
    else if q > 0 then .inf else .negInf

/-- JavaScript multiplication of two numbers: the exact product of two
finite doubles rounded by `fl`; `NaN` propagates; `0 × ∞ = NaN`. -/
def jsMul (a b : JSNum) : JSNum :=
  match a, b with
  | .finite x, .finite y => fl (x * y)
  | .nan, _ => .nan
  | _, .nan => .nan
  | .finite x, .inf => if x = 0 then .nan else if x > 0 then .inf else .negInf
  | .finite x, .negInf => if x = 0 then .nan else if x > 0 then .negInf else .inf
  | .inf, .finite y => if y = 0 then .nan else if y > 0 then .inf else .negInf
  | .negInf, .finite y => if y = 0 then .nan else if y > 0 then .negInf else .inf
  | .inf, .inf => .inf
  | .inf, .negInf => .negInf
  | .negInf, .inf => .negInf
  | .negInf, .negInf => .inf

/-- `Math.floor`: floor of a finite double (the result is always exactly
representable); `NaN` and the infinities are returned unchanged. -/
def mathFloor (a : JSNum) : JSNum :=
  match a with
  | .finite x => .finite (⌊x⌋ : ℚ)
  | x => x

/-- `Math.pow(10, d)` for a natural exponent `d`: modelled as the
correctly rounded value of `10 ^ d`, which is what real engines return for
these arguments (and is exact for every `d ≤ 22`). -/
def jsPow10 (d : ℕ) : JSNum := fl ((10 : ℚ) ^ d)

/-! ## `Number(string)`: parsing a decimal numeral

`ToNumber` on a string, restricted to plain decimal numerals (optional
sign, integer digits, optional dot, fraction digits) — the shapes the
transfer amounts take.  Exotic string-number forms (hex literals,
exponents, `Infinity`, surrounding whitespace) are outside the model.
A malformed numeral yields `none`, i.e. `NaN`; per JavaScript the empty
string parses to `0`. -/

/-- Value of a digit list read in base 10; `none` if any character is not
a decimal digit.  The empty list reads as `0`. -/
def digitsToNat (l : List Char) : Option ℕ :=
  l.foldl
    (fun acc c =>
      match acc with
      | none => none
      | some n => if c.isDigit then some (10 * n + (c.toNat - 48)) else none)
    (some 0)

/-- Split a character list at the first dot: the characters before it, and
(if a dot occurs) the characters after it. -/
def breakDot : List Char → List Char × Option (List Char)
  | [] => ([], none)
  | c :: t =>
    if c = '.' then ([], some t)
    else
      let p := breakDot t
      (c :: p.1, p.2)

/-- The digits of a decimal numeral: sign, integer part, fraction part,
and number of fraction digits. -/
structure Numeral where
  neg : Bool
  ip : ℕ
  fp : ℕ
  flen : ℕ
deriving DecidableEq

/-- Decompose a decimal numeral string (optional sign, integer digits,
optional dot, fraction digits); `none` when the string is not of that
shape.  Per JavaScript the empty string is the numeral `0`. -/
def parseNumeral (s : String) : Option Numeral :=
  match s.data with
  | [] => some ⟨false, 0, 0, 0⟩
  | c :: t =>
    let neg := c = '-'
    let body := if c = '-' ∨ c = '+' then t else c :: t
    let p := breakDot body
    match p.2 with
    | none =>
      if p.1 = [] then none
      else (digitsToNat p.1).map fun n => ⟨neg, n, 0, 0⟩
    | some fp =>
      if p.1 = [] ∧ fp = [] then none
      else if fp.contains '.' then none
      else
        match digitsToNat p.1, digitsToNat fp with
        | some a, some b => some ⟨neg, a, b, fp.length⟩
        | _, _ => none

/-- The exact rational value a decimal numeral denotes. -/
def numeralVal (n : Numeral) : ℚ :=
  (if n.neg then -1 else 1) * ((n.ip : ℚ) + (n.fp : ℚ) / 10 ^ n.flen)

/-- The exact rational value of a decimal numeral string, `none` when the
string is not a plain decimal numeral (JavaScript would produce `NaN`). -/
def parseDecimal (s : String) : Option ℚ :=
  (parseNumeral s).map numeralVal

/-- `Number(s)` for a string `s`: the correctly rounded double of the
numeral's exact value, `NaN` when the string is not a numeral. -/
def jsNumberOfString (s : String) : JSNum :=
  match parseDecimal s with
  | some q => fl q
  | none => .nan

/-- `Number(x)` applied to a `string | number` value: identity on numbers,
string parsing on strings. -/
def toNumber : String ⊕ JSNum → JSNum
  | .inl s => jsNumberOfString s
  | .inr x => x

/-- Fuel-driven floor binary logarithm (the fuel bounds the recursion
depth; with fuel at least `n` it computes `Nat.log 2 n`). -/
def log2Fuel : ℕ → ℕ → ℕ
  | 0, _ => 0
  | f + 1, n => if n ≤ 1 then 0 else 1 + log2Fuel f (n / 2)

/-- Floor binary logarithm, zero at zero. -/
def intLog2 (n : ℕ) : ℕ := log2Fuel n n

/-- Unit in the last place of the binade of an integer-valued double `x`:
`2^(e-52)` where `2^e ≤ |x| < 2^(e+1)`, clamped to `1` below `2^53`
(where integer doubles are exact and only `x` itself can round-trip). -/
def dblUlp (x : ℤ) : ℤ := 2 ^ (intLog2 x.natAbs - 52)

/-- The multiple of `t` nearest to `x` (`t > 0`), ties going to the even
multiple. -/
def nearestMult (x t : ℤ) : ℤ :=
  let r := x % t
  let lower := x - r
  if 2 * r < t then lower
  else if t < 2 * r then lower + t
  else if (lower / t) % 2 = 0 then lower else lower + t

/-- Descending search for the positional decimal with the most trailing
zeros (fewest significant digits) that still rounds back to the double
`x`: a candidate `m` (the nearest multiple of `10^(j+1)`) is accepted
when it lies within half an ulp of `x`, on the boundary only when `x`'s
mantissa is even (round-to-nearest, ties to even). -/
def srtAux (x u : ℤ) : ℕ → ℤ
  | 0 => x
  | j + 1 =>
    let m := nearestMult x (10 ^ (j + 1))
    if 2 * |m - x| < u ∨ (2 * |m - x| = u ∧ (x / u) % 2 = 0) then m
    else srtAux x u j

/-- `Number::toString` (ECMA-262) of an integer-valued double `x` with
`|x| < 10^21`, as the integer the printed numeral denotes: the shortest
decimal that round-trips to `x` — the digit count `k` minimal, the
significand closest to `x`, ties to even.  Values below `10^21` have at
most 21 digits hence at most 21 trailing zeros. -/
def shortestRoundTripInt (x : ℤ) : ℤ := srtAux x (dblUlp x) 21

/-- `BigInt(x.toString())` for a double `x`.  `toString` prints the
shortest round-trip decimal: exact for integer-valued doubles below
`2^53`, the nearest shortest decimal above, and exponential notation
(which `BigInt` rejects with a `SyntaxError`) from `10^21` on.  `none`
models the throw: `NaN`, an infinity, a fractional value, or the
exponential form. -/
def toBigInt : JSNum → Option ℤ
  | .finite q =>
    if q.den = 1 then
      if q.num.natAbs < 10 ^ 21 then some (shortestRoundTripInt q.num)
      else none
    else none
  | _ => none

/-- Lines 183–187 of `transfer.ts`:
`Math.floor(Number(content.amount) * Math.pow(10, Number(decimals)))`
followed by `BigInt(amountInteger.toString())`.  `none` models the
`BigInt` conversion throwing (caught by the handler's `catch`). -/
def amountToWei (amount : String ⊕ JSNum) (decimals : ℕ) : Option ℤ :=
  toBigInt (mathFloor (jsMul (toNumber amount) (jsPow10 decimals)))

/-! ## The content object and the validator `isTransferContent`

`TransferContent` is modelled at its TypeScript-declared field types
(`tokenAddress: string; recipient?: string; starkName?: string;
amount: string | number`); an absent optional field (`undefined`) is
`none`.  JavaScript truthiness on an optional string: `undefined` and the
empty string are falsy. -/

structure TransferContent where
  tokenAddress : Option String
  recipient : Option String
  starkName : Option String
  amount : Option (String ⊕ JSNum)
deriving DecidableEq

/-- JavaScript truthiness of an optional string: truthy exactly when
present and non-empty. -/
def truthyStr : Option String → Bool
  | some s => !s.isEmpty
  | none => false

/-- Modelled from the spec: `isStarkDomain` lives in
`../utils/starknetId`, outside the provided sources.  Per §6 of the spec
the domain grammar is a non-empty label of ASCII alphanumerics and
hyphens followed by the reserved suffix `.stark`. -/
def isStarkDomain (s : String) : Bool :=
  match breakDot s.data with
  | (label, some suffix) =>
    !label.isEmpty && label.all (fun c => c.isAlphanum || c = '-') &&
      suffix = [ 's', 't', 'a', 'r', 'k' ]
  | (_, none) => false

/-- `isTransferContent` (lines 30–70 of `transfer.ts`): type checks, the
token-address shape check (`0x` prefix and length 66), then the
truthiness-guarded recipient / starkName shape checks. -/
def isTransferContent (content : TransferContent) : Bool :=
  let validTypes :=
    content.tokenAddress.isSome &&
    (content.recipient.isSome || content.starkName.isSome) &&
    content.amount.isSome
  if !validTypes then false
  else
    match content.tokenAddress with
    | none => false
    | some ta =>
      let validTokenAddress :=
        (ta.data.take 2 = [ '0', 'x' ]) && ta.length = 66
      if !validTokenAddress then false
      else if truthyStr content.recipient then
        match content.recipient with
        | some r => (r.data.take 2 = [ '0', 'x' ]) && r.length = 66
        | none => false
      else if truthyStr content.starkName then
        match content.starkName with
        | some n => isStarkDomain n
        | none => false
      else true

/-! ## The handler

The relevant steps of the action handler (lines 115–228 of
`transfer.ts`): the regex scan of the recent-messages string, the fixed
STRK token address, the overriding of the extracted fields, validation,
and the try-block that converts the amount and resolves the recipient.
The language-model call, logging, and the transaction submission are
external; the LLM's output enters as a parameter and a successful
submission is the `transferred` outcome. -/

/-- A hexadecimal digit as matched by the character class `[a-fA-F0-9]`. -/
def isHexDigit (c : Char) : Bool :=
  c.isDigit || ('a' ≤ c && c ≤ 'f') || ('A' ≤ c && c ≤ 'F')

/-- Attempt to match the pattern `0x[a-fA-F0-9]{64}` at the head of the
character list, returning the 66 matched characters. -/
def matchHexAt (l : List Char) : Option (List Char) :=
  match l with
  | '0' :: 'x' :: rest =>
    let h := rest.take 64
    if h.length = 64 ∧ h.all isHexDigit then some ('0' :: 'x' :: h) else none
  | _ => none

/-- Leftmost match of `0x[a-fA-F0-9]{64}` in a character list, as
JavaScript `String.prototype.match` with a non-global regex finds it. -/
def firstHexMatchAux : List Char → Option (List Char)
  | [] => none
  | c :: rest =>
    match matchHexAt (c :: rest) with
    | some m => some m
    | none => firstHexMatchAux rest

/-- `state.recentMessages.match(/0x[a-fA-F0-9]{64}/)`, reduced to the
matched substring (`match[0]`), `none` when there is no match. -/
def firstHexMatch (s : String) : Option String :=
  (firstHexMatchAux s.data).map fun l => ⟨l⟩

/-- Modelled from the spec: `PROVIDER_CONFIG.TOKEN_ADDRESSES.STRK` is
imported from the package index, outside the provided sources; the value
is the STRK address listed in the known-addresses table of
`transferTemplate` in the same file. -/
def strkTokenAddress : String :=
  "0x04718f5a0fc34cc1af16a1cdee98ffb20c31f5cd61d6ab07201858f4287c938d"

/-- Lines 184–190 of `transfer.ts` (the resolution segment of the
try-block): amount conversion to wei, then
`content.recipient ?? (await getAddressFromName(account, content.starkName))`.
`nameResolver` stands for `getAddressFromName`; `none` from it (or an
absent `starkName`) models the external call failing, and a `none`
overall is a thrown error caught by the handler's `catch`. -/
def resolveSegment (amount : String ⊕ JSNum) (decimals : ℕ)
    (recipient : Option String) (starkName : Option String)
    (nameResolver : String → Option String) : Option (String × ℤ) :=
  match amountToWei amount decimals with
  | none => none
  | some w =>
    match recipient with
    | some r => some (r, w)
    | none =>
      match starkName with
      | some n => (nameResolver n).map fun a => (a, w)
      | none => none

/-- Observable outcome of one handler invocation. -/
inductive HandlerOutcome where
  | noRecipient
  | invalidContent
  | errored
  | transferred (recipient : String) (amountWei : ℤ) (token : String)
deriving DecidableEq

/-- The handler (lines 115–228 of `transfer.ts`), with its external
inputs as parameters: `recentMessages` from the state, `llm` the content
object produced by `generateObjectDeprecated`, `amountDraw` the random
draw `Number((Math.random() * 4 + 1).toFixed(3))`, `decimals` the token's
reported precision, and `nameResolver` for `getAddressFromName`.  The
handler overwrites `tokenAddress`, `recipient` and `amount` on the LLM
content before validating, and returns `false` (here `noRecipient`) when
the regex finds no address. -/
def handler (recentMessages : String) (llm : TransferContent)
    (amountDraw : JSNum) (decimals : ℕ)
    (nameResolver : String → Option String) : HandlerOutcome :=
  match firstHexMatch recentMessages with
  | none => .noRecipient
  | some r =>
    let content : TransferContent :=
      { llm with
        tokenAddress := some strkTokenAddress
        recipient := some r
        amount := some (.inr amountDraw) }
    if !isTransferContent content then .invalidContent
    else
      match resolveSegment (.inr amountDraw) decimals content.recipient
        content.starkName nameResolver with
      | none => .errored
      | some p => .transferred p.1 p.2 strkTokenAddress

/-! ## Spec-side model of the exact conversion

The specification (§4.1 `resolve`, §8) requires
`amountMinorUnits = floor(numericAmount × 10^d)` computed exactly, with
no floating-point rounding. -/

/-- Modelled from the spec: the exact minor-unit conversion
`floor(amount × 10^d)` over exact rational arithmetic. -/
def exactMinorUnits (q : ℚ) (d : ℕ) : ℤ := ⌊q * 10 ^ d⌋

/-! ## Evaluation lemmas for the binary64 model -/

theorem log2_eq_of_bounds {q : ℚ} {e : ℤ} (hq : 0 < q)
    (h1 : (2 : ℚ) ^ e ≤ q) (h2 : q < (2 : ℚ) ^ (e + 1)) :
    Int.log 2 q = e := by
  have hb : (1 : ℕ) < 2 := by norm_num
  have l1 : ((2 : ℕ) : ℚ) ^ (Int.log 2 q) ≤ q := Int.zpow_log_le_self hb hq
  have l2 : q < ((2 : ℕ) : ℚ) ^ (Int.log 2 q + 1) := Int.lt_zpow_succ_log_self hb q
  have hc : ((2 : ℕ) : ℚ) = (2 : ℚ) := by norm_num
  rw [hc] at l1 l2
  have h12 : (1 : ℚ) < 2 := by norm_num
  have ha : e < Int.log 2 q + 1 :=
    (zpow_lt_zpow_iff_right₀ h12).mp (lt_of_le_of_lt h1 l2)
  have hbb : Int.log 2 q < e + 1 :=
    (zpow_lt_zpow_iff_right₀ h12).mp (lt_of_le_of_lt l1 h2)
  omega

theorem roundNE_eq_floor {x : ℚ} (h : x - (⌊x⌋ : ℚ) < 1/2) :
    roundNE x = ⌊x⌋ := by
  simp only [roundNE]
  rw [if_pos h]

theorem roundNE_eq_floor_add_one {x : ℚ} (h : 1/2 < x - (⌊x⌋ : ℚ)) :
    roundNE x = ⌊x⌋ + 1 := by
  simp only [roundNE]
  rw [if_neg (by linarith), if_pos h]

theorem roundNE_intCast (n : ℤ) : roundNE (n : ℚ) = n := by
  have h : ((n : ℚ) - (⌊(n : ℚ)⌋ : ℚ)) = 0 := by
    rw [Int.floor_intCast]
    ring
  rw [roundNE_eq_floor (by rw [h]; norm_num), Int.floor_intCast]

/-- Evaluate `fl` from explicit binade bounds: if `2^e ≤ |q| < 2^(e+1)`
with `e` in the normal range and the scaled rounding yields `m`, then
`fl q` is the finite value `m · 2^(e-52)`. -/
theorem fl_eq_of_bounds {q : ℚ} {e m : ℤ} (hq : q ≠ 0)
    (h1 : (2 : ℚ) ^ e ≤ |q|) (h2 : |q| < (2 : ℚ) ^ (e + 1))
    (he : -1022 ≤ e)
    (hm : roundNE (q * (2 : ℚ) ^ (52 - e)) = m)
    (hr : |(m : ℚ) * (2 : ℚ) ^ (e - 52)| < (2 : ℚ) ^ (1024 : ℤ)) :
    fl q = .finite ((m : ℚ) * (2 : ℚ) ^ (e - 52)) := by
  have hlog : Int.log 2 |q| = e := log2_eq_of_bounds (abs_pos.mpr hq) h1 h2
  have hmax : max (e - 52) (-1074) = e - 52 := by omega
  have hneg : -(e - 52) = 52 - e := by ring
  simp only [fl, if_neg hq, hlog, hmax, hneg, hm, if_pos hr]

/-- A value `m · 2^k` with at most 53 significant bits, in range, is
exactly representable: `fl` returns it unchanged. -/
theorem fl_repr {m k : ℤ} (h0 : m ≠ 0) (hm : |m| < 2 ^ 53)
    (hk : -1074 ≤ k)
    (hbound : |(m : ℚ) * (2 : ℚ) ^ k| < (2 : ℚ) ^ (1024 : ℤ)) :
    fl ((m : ℚ) * (2 : ℚ) ^ k) = .finite ((m : ℚ) * (2 : ℚ) ^ k) := by
  set q : ℚ := (m : ℚ) * (2 : ℚ) ^ k with hqdef
  have hm0 : (m : ℚ) ≠ 0 := Int.cast_ne_zero.mpr h0
  have h2k : (2 : ℚ) ^ k ≠ 0 := zpow_ne_zero k (by norm_num)
  have hq : q ≠ 0 := mul_ne_zero hm0 h2k
  have habs : |q| = |(m : ℚ)| * (2 : ℚ) ^ k := by
    rw [hqdef, abs_mul, abs_of_pos (zpow_pos (by norm_num : (0:ℚ) < 2) k)]
  set e : ℤ := Int.log 2 |q| with hedef
  have hqpos : (0 : ℚ) < |q| := abs_pos.mpr hq
  have l1 : ((2 : ℕ) : ℚ) ^ e ≤ |q| := Int.zpow_log_le_self (by norm_num) hqpos
  have hc : ((2 : ℕ) : ℚ) = (2 : ℚ) := by norm_num
  rw [hc] at l1
  have hup : |q| < (2 : ℚ) ^ (k + 53) := by
    rw [habs]
    have : |(m : ℚ)| < (2 : ℚ) ^ (53 : ℕ) := by
      exact_mod_cast hm
    calc |(m : ℚ)| * (2 : ℚ) ^ k < (2 : ℚ) ^ (53 : ℕ) * (2 : ℚ) ^ k := by
          apply mul_lt_mul_of_pos_right this
          positivity
      _ = (2 : ℚ) ^ (k + 53) := by
          rw [← zpow_natCast (2 : ℚ) 53, ← zpow_add₀ (by norm_num : (2:ℚ) ≠ 0)]
          ring_nf
  have he_le : e ≤ k + 52 := by
    have : (2 : ℚ) ^ e < (2 : ℚ) ^ (k + 53) := lt_of_le_of_lt l1 hup
    have := (zpow_lt_zpow_iff_right₀ (by norm_num : (1:ℚ) < 2)).mp this
    omega
  have hmax : max (e - 52) (-1074) ≤ k := by omega
  set kp : ℤ := max (e - 52) (-1074) with hkp
  have hd : 0 ≤ k - kp := by omega
  -- the scaled value is the integer m * 2^(k - kp)
  have hscaled : q * (2 : ℚ) ^ (-kp) = ((m * 2 ^ (k - kp).toNat : ℤ) : ℚ) := by
    push_cast
    rw [← zpow_natCast (2 : ℚ) (k - kp).toNat, Int.toNat_of_nonneg hd, hqdef]
    rw [mul_assoc, ← zpow_add₀ (by norm_num : (2:ℚ) ≠ 0)]
    ring_nf
  have hround : roundNE (q * (2 : ℚ) ^ (-kp)) = m * 2 ^ (k - kp).toNat := by
    rw [hscaled, roundNE_intCast]
  have hback : ((m * 2 ^ (k - kp).toNat : ℤ) : ℚ) * (2 : ℚ) ^ kp = q := by
    push_cast
    rw [← zpow_natCast (2 : ℚ) (k - kp).toNat, Int.toNat_of_nonneg hd, hqdef]
    rw [mul_assoc, ← zpow_add₀ (by norm_num : (2:ℚ) ≠ 0)]
    ring_nf
  simp only [fl, if_neg hq, ← hedef, ← hkp, hround, hback, if_pos hbound]

theorem fl_eval_pos {q : ℚ} {e m : ℤ} (hq : 0 < q)
    (h1 : (2 : ℚ) ^ e ≤ q) (h2 : q < (2 : ℚ) ^ (e + 1)) (he : -1022 ≤ e)
    (hm : roundNE (q * (2 : ℚ) ^ (52 - e)) = m)
    (hr : |(m : ℚ) * (2 : ℚ) ^ (e - 52)| < (2 : ℚ) ^ (1024 : ℤ)) :
    fl q = .finite ((m : ℚ) * (2 : ℚ) ^ (e - 52)) :=
  fl_eq_of_bounds (ne_of_gt hq) (by rwa [abs_of_pos hq]) (by rwa [abs_of_pos hq])
    he hm hr

theorem fl_intCast {n : ℤ} (hn : |n| < 2 ^ 53) : fl (n : ℚ) = .finite (n : ℚ) := by
  rcases eq_or_ne n 0 with h | h
  · subst h
    simp [fl]
  · have hb : |(n : ℚ) * (2 : ℚ) ^ (0 : ℤ)| < (2 : ℚ) ^ (1024 : ℤ) := by
      rw [zpow_zero, mul_one]
      have h1 : |(n : ℚ)| < (2 : ℚ) ^ 53 := by exact_mod_cast hn
      have h2 : ((2 : ℚ) ^ 53 : ℚ) < (2 : ℚ) ^ (1024 : ℤ) := by norm_num
      linarith
    have := fl_repr h hn (by norm_num) hb
    rwa [zpow_zero, mul_one] at this

/-- `Math.pow(10, d)` is exact for `d ≤ 22`. -/
theorem jsPow10_exact {d : ℕ} (hd : d ≤ 22) :
    jsPow10 d = .finite ((10 : ℚ) ^ d) := by
  have h10 : ((10 : ℚ) ^ d) = (((5 ^ d : ℤ) : ℚ)) * (2 : ℚ) ^ (d : ℤ) := by
    push_cast
    rw [zpow_natCast, ← mul_pow]
    norm_num
  have hm : |(5 ^ d : ℤ)| < 2 ^ 53 := by
    rw [abs_of_nonneg (by positivity)]
    calc (5 ^ d : ℤ) ≤ 5 ^ 22 := pow_le_pow_right₀ (by norm_num) hd
      _ < 2 ^ 53 := by norm_num
  have hb : |((5 ^ d : ℤ) : ℚ) * (2 : ℚ) ^ (d : ℤ)| < (2 : ℚ) ^ (1024 : ℤ) := by
    rw [← h10, abs_of_nonneg (by positivity)]
    calc (10 : ℚ) ^ d ≤ 10 ^ 22 := by
          apply pow_le_pow_right₀ (by norm_num) hd
      _ < (2 : ℚ) ^ (1024 : ℤ) := by norm_num
  have := fl_repr (by positivity : (0:ℤ) < 5 ^ d).ne' hm (by omega) hb
  rw [jsPow10, h10, this]

theorem mathFloor_finite (q : ℚ) : mathFloor (.finite q) = .finite ((⌊q⌋ : ℤ) : ℚ) :=
  rfl

theorem log2Fuel_eq_log : ∀ f n, n ≤ f → log2Fuel f n = Nat.log 2 n := by
  intro f
  induction f with
  | zero =>
    intro n h
    have hn : n = 0 := by omega
    subst hn
    rw [Nat.log_zero_right]
    rfl
  | succ f ih =>
    intro n h
    rw [log2Fuel]
    by_cases h1 : n ≤ 1
    · rw [if_pos h1]
      interval_cases n
      · rw [Nat.log_zero_right]
      · rw [Nat.log_one_right]
    · rw [if_neg h1]
      have h2 : 2 ≤ n := by omega
      have hdiv : n / 2 ≤ f := by omega
      rw [ih (n / 2) hdiv, Nat.log_div_base]
      have hpos : 0 < Nat.log 2 n := Nat.log_pos (by norm_num) h2
      omega

theorem intLog2_eq_log (n : ℕ) : intLog2 n = Nat.log 2 n :=
  log2Fuel_eq_log n n le_rfl

theorem dblUlp_eq_one {x : ℤ} (h : |x| < 2 ^ 53) : dblUlp x = 1 := by
  rw [dblUlp, intLog2_eq_log]
  have hlt : x.natAbs < 2 ^ 53 := by
    have := Int.abs_eq_natAbs x
    omega
  have hlog : Nat.log 2 x.natAbs ≤ 52 := by
    rcases Nat.eq_zero_or_pos x.natAbs with h0 | h0
    · rw [h0, Nat.log_zero_right]
      omega
    · have := Nat.log_lt_of_lt_pow (by omega : x.natAbs ≠ 0) hlt
      omega
  have hz : Nat.log 2 x.natAbs - 52 = 0 := by omega
  rw [hz, pow_zero]

theorem srtAux_one_eq_self (x : ℤ) : ∀ j, srtAux x 1 j = x := by
  intro j
  induction j with
  | zero => rfl
  | succ j ih =>
    rw [srtAux]
    by_cases h : 2 * |nearestMult x (10 ^ (j + 1)) - x| < 1 ∨
        (2 * |nearestMult x (10 ^ (j + 1)) - x| = 1 ∧ (x / 1) % 2 = 0)
    · rw [if_pos h]
      have habs : 0 ≤ |nearestMult x (10 ^ (j + 1)) - x| := abs_nonneg _
      have hz : |nearestMult x (10 ^ (j + 1)) - x| = 0 := by
        rcases h with h | h
        · omega
        · omega
      have := abs_eq_zero.mp hz
      omega
    · rw [if_neg h]
      exact ih

/-- Below `2^53` the shortest round-trip decimal of an integer double is
the integer itself. -/
theorem shortestRoundTripInt_eq_self {x : ℤ} (h : |x| < 2 ^ 53) :
    shortestRoundTripInt x = x := by
  rw [shortestRoundTripInt, dblUlp_eq_one h, srtAux_one_eq_self]

theorem toBigInt_intCast (n : ℤ) (hn : |n| < 2 ^ 53) :
    toBigInt (.finite ((n : ℤ) : ℚ)) = some n := by
  have hsmall : n.natAbs < 10 ^ 21 := by
    have h1 := Int.abs_eq_natAbs n
    have h2 : (2 : ℤ) ^ 53 < 10 ^ 21 := by norm_num
    omega
  simp only [toBigInt, Rat.den_intCast, Rat.num_intCast, if_true, if_pos hsmall,
    shortestRoundTripInt_eq_self hn]

theorem roundNE_of_floor_lt {x : ℚ} {f : ℤ} (hf : ⌊x⌋ = f)
    (h : x - (f : ℚ) < 1/2) : roundNE x = f := by
  rw [roundNE_eq_floor (by rw [hf]; exact h), hf]

theorem roundNE_of_floor_gt {x : ℚ} {f : ℤ} (hf : ⌊x⌋ = f)
    (h : 1/2 < x - (f : ℚ)) : roundNE x = f + 1 := by
  rw [roundNE_eq_floor_add_one (by rw [hf]; exact h), hf]

/-- `-10^d` is exactly representable for `d ≤ 22`. -/
theorem fl_neg_pow10 {d : ℕ} (hd : d ≤ 22) :
    fl (-((10 : ℚ) ^ d)) = .finite (-((10 : ℚ) ^ d)) := by
  have h10 : (-((10 : ℚ) ^ d)) = (((-(5 ^ d) : ℤ) : ℚ)) * (2 : ℚ) ^ (d : ℤ) := by
    push_cast
    rw [zpow_natCast]
    have h52 : (10 : ℚ) ^ d = 5 ^ d * 2 ^ d := by
      rw [← mul_pow]
      norm_num
    rw [h52]
    ring
  have hm : |(-(5 ^ d) : ℤ)| < 2 ^ 53 := by
    rw [abs_neg, abs_of_nonneg (by positivity)]
    calc (5 ^ d : ℤ) ≤ 5 ^ 22 := pow_le_pow_right₀ (by norm_num) hd
      _ < 2 ^ 53 := by norm_num
  have hb : |((-(5 ^ d) : ℤ) : ℚ) * (2 : ℚ) ^ (d : ℤ)| < (2 : ℚ) ^ (1024 : ℤ) := by
    rw [← h10, abs_neg, abs_of_nonneg (by positivity)]
    calc (10 : ℚ) ^ d ≤ 10 ^ 22 := by
          apply pow_le_pow_right₀ (by norm_num) hd
      _ < (2 : ℚ) ^ (1024 : ℤ) := by norm_num
  have h0 : (-(5 ^ d) : ℤ) ≠ 0 := neg_ne_zero.mpr (by positivity)
  have := fl_repr h0 hm (by omega) hb
  rw [h10, this]

/-- The conversion is exact on integer-valued double amounts whose scaled
value stays below `2^53`. -/
theorem amountToWei_intCast (n : ℤ) (d : ℕ) (hd : d ≤ 22)
    (hn : |n * 10 ^ d| < 2 ^ 53) :
    amountToWei (.inr (.finite (n : ℚ))) d = some (n * 10 ^ d) := by
  rw [amountToWei]
  simp only [toNumber]
  rw [jsPow10_exact hd]
  simp only [jsMul]
  have hprod : ((n : ℤ) : ℚ) * (10 : ℚ) ^ d = ((n * 10 ^ d : ℤ) : ℚ) := by
    push_cast
    ring
  rw [hprod, fl_intCast hn, mathFloor_finite, Int.floor_intCast,
    toBigInt_intCast _ hn]

theorem amountToWei_one : amountToWei (.inl "1") 0 = some 1 := by
  have hp : parseNumeral "1" = some ⟨false, 1, 0, 0⟩ := by decide
  have hone : numeralVal ⟨false, 1, 0, 0⟩ = ((1 : ℤ) : ℚ) := by
    norm_num [numeralVal]
  have hfl : fl ((1 : ℤ) : ℚ) = .finite ((1 : ℤ) : ℚ) := fl_intCast (by norm_num)
  rw [amountToWei, toNumber, jsNumberOfString, parseDecimal, hp]
  simp only [Option.map_some']
  rw [hone, hfl, jsPow10_exact (by norm_num)]
  simp only [jsMul]
  have h1 : ((1 : ℤ) : ℚ) * (10 : ℚ) ^ (0 : ℕ) = ((1 : ℤ) : ℚ) := by norm_num
  rw [h1, hfl, mathFloor_finite, Int.floor_intCast,
    toBigInt_intCast _ (by norm_num)]

/-- The conversion of the numeral `"-1"` for decimals up to 15 (the
scaled integer stays below `2^53`, where `toString` is exact): no
negativity check anywhere, the negative scaled integer flows through. -/
theorem amountToWei_negOne (d : ℕ) (hd15 : d ≤ 15) :
    amountToWei (.inl "-1") d = some (-(10 ^ d)) := by
  have hd : d ≤ 22 := by omega
  have hp : parseNumeral "-1" = some ⟨true, 1, 0, 0⟩ := by decide
  have hval : numeralVal ⟨true, 1, 0, 0⟩ = -(1 : ℚ) := by
    norm_num [numeralVal]
  rw [amountToWei, toNumber, jsNumberOfString, parseDecimal, hp]
  simp only [Option.map_some']
  rw [hval]
  have hfl : fl (-(1 : ℚ)) = .finite (-(1 : ℚ)) := by
    have := fl_intCast (n := -1) (by norm_num)
    simpa using this
  rw [hfl, jsPow10_exact hd]
  simp only [jsMul]
  have hprod : (-(1 : ℚ)) * (10 : ℚ) ^ d = -((10 : ℚ) ^ d) := by ring
  rw [hprod, fl_neg_pow10 hd]
  have hcast : -((10 : ℚ) ^ d) = (((-(10 ^ d) : ℤ)) : ℚ) := by
    push_cast
    ring
  have habs : |(-(10 ^ d) : ℤ)| < 2 ^ 53 := by
    rw [abs_neg, abs_of_nonneg (by positivity)]
    calc (10 ^ d : ℤ) ≤ 10 ^ 15 := pow_le_pow_right₀ (by norm_num) hd15
      _ < 2 ^ 53 := by norm_num
  rw [hcast, mathFloor_finite, Int.floor_intCast, toBigInt_intCast _ habs]

/-- The conversion of the numeral `"-1"` for decimals 21 and 22: the
scaled double `-1e21` / `-1e22` prints in exponential notation, `BigInt`
throws, and the generic catch turns the invocation into a failure. -/
theorem amountToWei_negOne_exp (d : ℕ) (h21 : 21 ≤ d) (h22 : d ≤ 22) :
    amountToWei (.inl "-1") d = none := by
  have hp : parseNumeral "-1" = some ⟨true, 1, 0, 0⟩ := by decide
  have hval : numeralVal ⟨true, 1, 0, 0⟩ = -(1 : ℚ) := by
    norm_num [numeralVal]
  rw [amountToWei, toNumber, jsNumberOfString, parseDecimal, hp]
  simp only [Option.map_some']
  rw [hval]
  have hfl : fl (-(1 : ℚ)) = .finite (-(1 : ℚ)) := by
    have := fl_intCast (n := -1) (by norm_num)
    simpa using this
  rw [hfl, jsPow10_exact h22]
  simp only [jsMul]
  have hprod : (-(1 : ℚ)) * (10 : ℚ) ^ d = -((10 : ℚ) ^ d) := by ring
  rw [hprod, fl_neg_pow10 h22]
  have hcast : -((10 : ℚ) ^ d) = (((-(10 ^ d) : ℤ)) : ℚ) := by
    push_cast
    ring
  rw [hcast, mathFloor_finite, Int.floor_intCast]
  have hbig : ¬((-(10 ^ d) : ℤ).natAbs < 10 ^ 21) := by
    rw [Int.natAbs_neg]
    have h1 : ((10 : ℤ) ^ d).natAbs = 10 ^ d := by
      rw [Int.natAbs_pow]
      rfl
    rw [h1]
    have h2 : (10 : ℕ) ^ 21 ≤ 10 ^ d := pow_le_pow_right₀ (by norm_num) h21
    omega
  simp only [toBigInt, Rat.den_intCast, Rat.num_intCast, if_true, if_neg hbig]

/-! Claim theorems. -/

/-- C2, counterexample: an intent supplying BOTH recipient fields — a
valid `recipient` address and a non-empty `starkName` — is accepted by
`isTransferContent`, while the claim demands `validate` return false when
both recipient fields are set. -/
theorem c2_counterexample :
    isTransferContent
      ⟨some "0x049d36570d4e46f48e99674bd3fcc84644ddd6b96f7c741b1562b82f9e004dc7",
       some "0x049d36570d4e46f48e99674bd3fcc84644ddd6b96f7c741b1562b82f9e004dc7",
       some "alice.stark", some (.inl "1")⟩ = true := by decide

/-- C2, amended: the validator does not enforce exclusivity of the
recipient fields.  With a well-shaped token address and a non-empty
`recipient`, acceptance depends only on the `recipient` shape check
(`starkName` is ignored even when also set); and when both recipient
fields are absent (`undefined`), validation fails the type check and
returns false. -/
theorem c2_amended_validator (ta r : String) (sn : Option String)
    (a : String ⊕ JSNum)
    (hta1 : ta.data.take 2 = [ '0', 'x' ]) (hta2 : ta.length = 66)
    (hr : r ≠ "") :
    (isTransferContent ⟨some ta, some r, sn, some a⟩ = true ↔
      (r.data.take 2 = [ '0', 'x' ] ∧ r.length = 66)) ∧
    isTransferContent ⟨some ta, none, none, some a⟩ = false := by
  constructor
  · simp [isTransferContent, truthyStr, hta1, hta2, String.isEmpty_iff, hr]
  · simp [isTransferContent, truthyStr]

theorem c2_witness :
    isTransferContent
      ⟨some "0x049d36570d4e46f48e99674bd3fcc84644ddd6b96f7c741b1562b82f9e004dc7",
       some "0x049d36570d4e46f48e99674bd3fcc84644ddd6b96f7c741b1562b82f9e004dc7",
       none, some (.inl "2")⟩ = true ∧
    isTransferContent
      ⟨some "0x049d36570d4e46f48e99674bd3fcc84644ddd6b96f7c741b1562b82f9e004dc7",
       none, none, some (.inl "2")⟩ = false :=
  ⟨((c2_amended_validator
      "0x049d36570d4e46f48e99674bd3fcc84644ddd6b96f7c741b1562b82f9e004dc7"
      "0x049d36570d4e46f48e99674bd3fcc84644ddd6b96f7c741b1562b82f9e004dc7"
      none (.inl "2") (by decide) (by decide) (by decide)).1).mpr
      ⟨by decide, by decide⟩,
   (c2_amended_validator
      "0x049d36570d4e46f48e99674bd3fcc84644ddd6b96f7c741b1562b82f9e004dc7"
      "0x049d36570d4e46f48e99674bd3fcc84644ddd6b96f7c741b1562b82f9e004dc7"
      none (.inl "2") (by decide) (by decide) (by decide)).2⟩

/-- C3, counterexample: an intent whose amount is the numeral `"-1"` —
numeric value `-1`, not strictly positive — is accepted by
`isTransferContent`, while the claim says `validate` returns false for
non-positive amounts. -/
theorem c3_counterexample :
    isTransferContent
      ⟨some "0x049d36570d4e46f48e99674bd3fcc84644ddd6b96f7c741b1562b82f9e004dc7",
       some "0x049d36570d4e46f48e99674bd3fcc84644ddd6b96f7c741b1562b82f9e004dc7",
       none, some (.inl "-1")⟩ = true ∧
    parseDecimal "-1" = some (-1) ∧ ¬((-1 : ℚ) > 0) := by
  refine ⟨by decide, ?_, by norm_num⟩
  have h : parseNumeral "-1" = some ⟨true, 1, 0, 0⟩ := by decide
  rw [parseDecimal, h]
  simp only [Option.map_some']
  norm_num [numeralVal]

/-- C3, amended: the validator checks only the TYPE of the amount field
(string or number), never its numeric value: its verdict is unchanged by
replacing one present amount by any other. -/
theorem c3_amended_amount_type_only (c : TransferContent)
    (a b : String ⊕ JSNum) :
    isTransferContent { c with amount := some a } =
      isTransferContent { c with amount := some b } := by
  simp [isTransferContent]

/-- C4, counterexample: a token identifier of length 66 starting `0x`
whose remaining 64 characters are all `z` (not hexadecimal) is accepted,
while the claim demands `validate` return false unless those characters
are hex digits. -/
theorem c4_counterexample :
    isTransferContent
      ⟨some "0xzzzzzzzzzzzzzzzzzzzzzzzzzzzzzzzzzzzzzzzzzzzzzzzzzzzzzzzzzzzzzzzz",
       some "0x049d36570d4e46f48e99674bd3fcc84644ddd6b96f7c741b1562b82f9e004dc7",
       none, some (.inl "1")⟩ = true := by decide

/-- C4, amended: acceptance requires (only) that the token identifier
start with `0x` and have total length 66; the hexadecimal-ness of the
remaining 64 characters is never checked.  In particular a short
identifier such as `"0xabc"` is still rejected. -/
theorem c4_amended_shape_only (c : TransferContent) (ta : String)
    (hta : c.tokenAddress = some ta) (h : isTransferContent c = true) :
    ta.data.take 2 = [ '0', 'x' ] ∧ ta.length = 66 := by
  by_contra hcon
  rw [isTransferContent, hta] at h
  simp only [not_and_or] at hcon
  rcases hcon with hc | hc <;>
    simp [hc] at h

theorem c4_witness :
    ("0x049d36570d4e46f48e99674bd3fcc84644ddd6b96f7c741b1562b82f9e004dc7"
        : String).data.take 2 = [ '0', 'x' ] ∧
    ("0x049d36570d4e46f48e99674bd3fcc84644ddd6b96f7c741b1562b82f9e004dc7"
        : String).length = 66 :=
  c4_amended_shape_only
    ⟨some "0x049d36570d4e46f48e99674bd3fcc84644ddd6b96f7c741b1562b82f9e004dc7",
     some "0x049d36570d4e46f48e99674bd3fcc84644ddd6b96f7c741b1562b82f9e004dc7",
     none, some (.inl "1")⟩
    "0x049d36570d4e46f48e99674bd3fcc84644ddd6b96f7c741b1562b82f9e004dc7"
    rfl (by decide)

/-- C5: in the resolution segment, a present `recipient` is used verbatim
(the result does not involve the name resolver at all, `f` being
arbitrary), and only with `recipient` absent is the name resolver invoked
on `starkName`. -/
theorem c5_resolution (c : TransferContent) (h : isTransferContent c = true)
    (amt : String ⊕ JSNum) (d : ℕ) (f : String → Option String) (w : ℤ)
    (hw : amountToWei amt d = some w) :
    (∀ r, c.recipient = some r →
      resolveSegment amt d c.recipient c.starkName f = some (r, w)) ∧
    (c.recipient = none → ∀ n, c.starkName = some n →
      resolveSegment amt d c.recipient c.starkName f =
        (f n).map fun a => (a, w)) := by
  constructor
  · intro r hr
    rw [resolveSegment, hw, hr]
  · intro hr n hn
    rw [resolveSegment, hw, hr, hn]

theorem c5_witness :
    resolveSegment (.inl "1") 0
      (some "0x049d36570d4e46f48e99674bd3fcc84644ddd6b96f7c741b1562b82f9e004dc7")
      none (fun _ => none) =
      some ("0x049d36570d4e46f48e99674bd3fcc84644ddd6b96f7c741b1562b82f9e004dc7",
        1) :=
  (c5_resolution
    ⟨some "0x049d36570d4e46f48e99674bd3fcc84644ddd6b96f7c741b1562b82f9e004dc7",
     some "0x049d36570d4e46f48e99674bd3fcc84644ddd6b96f7c741b1562b82f9e004dc7",
     none, some (.inl "1")⟩ (by decide) (.inl "1") 0 (fun _ => none) 1
     amountToWei_one).1 _ rfl

/-- C8: a content object with a well-shaped token address, an amount of
the declared type, `recipient` the empty string and `starkName` absent or
empty, is accepted: both truthiness-guarded shape checks are skipped, so
no recipient field is ever validated. -/
theorem c8_truthiness_skips_recipient_checks (ta : String)
    (a : String ⊕ JSNum) (sn : Option String)
    (h1 : ta.data.take 2 = [ '0', 'x' ]) (h2 : ta.length = 66)
    (h3 : sn = none ∨ sn = some "") :
    isTransferContent ⟨some ta, some "", sn, some a⟩ = true := by
  have he : ("" : String).isEmpty = true := rfl
  rcases h3 with h | h <;>
    subst h <;>
    simp [isTransferContent, truthyStr, h1, h2, he]

theorem c8_witness :
    isTransferContent
      ⟨some "0x049d36570d4e46f48e99674bd3fcc84644ddd6b96f7c741b1562b82f9e004dc7",
       some "", none, some (.inl "1")⟩ = true :=
  c8_truthiness_skips_recipient_checks
    "0x049d36570d4e46f48e99674bd3fcc84644ddd6b96f7c741b1562b82f9e004dc7"
    (.inl "1") none (by decide) (by decide) (Or.inl rfl)

/-- C9: the handler's regex gate.  The handler's outcome never depends on
the recipient the language model extracted (it is overwritten before
validation); when the recent-messages string has no `0x`+64-hex-digit
substring the handler stops with `noRecipient` (returns false, nothing
submitted); and any submitted transfer goes to the first regex match. -/
theorem c9_regex_gate (rm : String) (llm : TransferContent)
    (x : Option String) (amt : JSNum) (d : ℕ)
    (f : String → Option String) :
    handler rm llm amt d f = handler rm { llm with recipient := x } amt d f ∧
    (firstHexMatch rm = none → handler rm llm amt d f = .noRecipient) ∧
    (∀ r w t, handler rm llm amt d f = .transferred r w t →
      firstHexMatch rm = some r) := by
  refine ⟨?_, ?_, ?_⟩
  · rw [handler, handler]
  · intro h
    rw [handler, h]
  · intro r w t h
    rw [handler] at h
    cases hm : firstHexMatch rm with
    | none => rw [hm] at h; exact absurd h (by simp)
    | some r0 =>
      rw [hm] at h
      simp only at h
      split at h
      · exact absurd h (by simp)
      · cases haw : resolveSegment (Sum.inr amt) d (some r0) llm.starkName f with
        | none => rw [haw] at h; exact absurd h (by simp)
        | some p =>
          rw [haw] at h
          simp only [HandlerOutcome.transferred.injEq] at h
          rw [resolveSegment] at haw
          cases haw2 : amountToWei (Sum.inr amt) d with
          | none => rw [haw2] at haw; exact absurd haw (by simp)
          | some w0 =>
            rw [haw2] at haw
            simp only [Option.some.injEq] at haw
            rw [← h.1, ← haw]

/-- C1, counterexample: at the spec's own example — amount string
`"1.234567890123456789"`, decimals 18 — the code's conversion is off.
The binary64 product `Math.floor(Number(amount) * 1e18)` is the double
`1234567890123456768`; its `toString()` is the shortest round-trip
decimal `"1234567890123456800"`, so `BigInt` receives
`1234567890123456800` — not the exact value `1234567890123456789` the
claim requires. -/
theorem c1_counterexample :
    amountToWei (.inl "1.234567890123456789") 18 = some 1234567890123456800 ∧
    parseDecimal "1.234567890123456789" =
      some ((1234567890123456789 : ℚ) / 10 ^ 18) ∧
    exactMinorUnits ((1234567890123456789 : ℚ) / 10 ^ 18) 18 =
      1234567890123456789 ∧
    (1234567890123456800 : ℤ) ≠ 1234567890123456789 := by
  have hp : parseNumeral "1.234567890123456789" =
      some ⟨false, 1, 234567890123456789, 18⟩ := by decide
  refine ⟨?_, ?_, ?_, by norm_num⟩
  · have htn : toNumber (.inl "1.234567890123456789") =
        fl ((1234567890123456789 : ℚ) / 10 ^ 18) := by
      rw [toNumber, jsNumberOfString, parseDecimal, hp]
      simp only [Option.map_some']
      norm_num [numeralVal]
    have hfl1 : fl ((1234567890123456789 : ℚ) / 10 ^ 18) =
        .finite ((5559999489923579 : ℚ) * (2 : ℚ) ^ (-52 : ℤ)) := by
      have h := fl_eval_pos (q := (1234567890123456789 : ℚ) / 10 ^ 18) (e := 0)
        (m := 5559999489923579) (by norm_num) (by norm_num) (by norm_num)
        (by norm_num) (roundNE_of_floor_lt (by norm_num) (by norm_num))
        (by rw [abs_of_pos (by norm_num)]; norm_num)
      rw [h]
      norm_num
    have hrm : roundNE ((5559999489923579 : ℚ) * (2 : ℚ) ^ (-52 : ℤ)
        * (10 : ℚ) ^ 18 * (2 : ℚ) ^ ((52 : ℤ) - 60)) = 4822530820794753 := by
      exact (roundNE_of_floor_gt (f := 4822530820794752) (by norm_num)
        (by norm_num)).trans (by norm_num)
    have hfl2 : fl ((5559999489923579 : ℚ) * (2 : ℚ) ^ (-52 : ℤ)
        * (10 : ℚ) ^ 18) = .finite (((1234567890123456768 : ℤ) : ℚ)) := by
      have h := fl_eval_pos
        (q := (5559999489923579 : ℚ) * (2 : ℚ) ^ (-52 : ℤ) * (10 : ℚ) ^ 18)
        (e := 60) (m := 4822530820794753) (by norm_num) (by norm_num)
        (by norm_num) (by norm_num) hrm
        (by rw [abs_of_pos (by norm_num)]; norm_num)
      rw [h]
      norm_num
    have hsrt : shortestRoundTripInt 1234567890123456768 =
        1234567890123456800 := by decide
    have hbig : toBigInt (.finite ((1234567890123456768 : ℤ) : ℚ)) =
        some 1234567890123456800 := by
      have hsmall : (1234567890123456768 : ℤ).natAbs < 10 ^ 21 := by decide
      simp only [toBigInt, Rat.den_intCast, Rat.num_intCast, if_true,
        if_pos hsmall, hsrt]
    rw [amountToWei, htn, hfl1, jsPow10_exact (by norm_num)]
    simp only [jsMul]
    rw [hfl2, mathFloor_finite, Int.floor_intCast, hbig]
  · rw [parseDecimal, hp]
    simp only [Option.map_some']
    norm_num [numeralVal]
  · rw [exactMinorUnits]
    norm_num

/-- C1, amended: the conversion routes through binary64 floating point,
so it agrees with the exact conversion only on amounts whose value and
scaled product stay exactly representable — in particular, for every
integer-valued amount `n` with `n·10^d < 2^53` and `d ≤ 22` the result
equals the exact `exactMinorUnits`; outside that range it can differ, as
at the spec's 18-fractional-digit example. -/
theorem c1_amended_conversion (n d : ℕ) (hd : d ≤ 22)
    (hn : (n : ℤ) * 10 ^ d < 2 ^ 53) :
    amountToWei (.inr (.finite (n : ℚ))) d =
      some (exactMinorUnits (n : ℚ) d) ∧
    exactMinorUnits (n : ℚ) d = (n : ℤ) * 10 ^ d := by
  have hexact : exactMinorUnits ((n : ℕ) : ℚ) d = (n : ℤ) * 10 ^ d := by
    rw [exactMinorUnits]
    have hcast : ((n : ℕ) : ℚ) * 10 ^ d = (((n : ℤ) * 10 ^ d : ℤ) : ℚ) := by
      push_cast
      ring
    rw [hcast, Int.floor_intCast]
  refine ⟨?_, hexact⟩
  rw [hexact]
  have habs : |(n : ℤ) * 10 ^ d| < 2 ^ 53 := by
    rw [abs_of_nonneg (by positivity)]
    exact hn
  have h := amountToWei_intCast (n : ℤ) d hd habs
  have hc : (((n : ℤ) : ℚ)) = ((n : ℕ) : ℚ) := by push_cast; ring
  rw [hc] at h
  exact h

theorem c1_witness :
    amountToWei (.inr (.finite ((25 : ℕ) : ℚ))) 5 = some 2500000 ∧
    exactMinorUnits ((25 : ℕ) : ℚ) 5 = 2500000 := by
  have h := c1_amended_conversion 25 5 (by norm_num) (by norm_num)
  constructor
  · rw [h.1, h.2]
    norm_num
  · rw [h.2]
    norm_num

/-- C6, counterexample: with amount `"-1"` and decimals 0, the
resolution segment returns a resolved pair carrying the NEGATIVE
minor-unit amount `-1` — no `ConversionError`, no failure of any kind —
while the claim requires resolve to fail whenever the computed amount is
negative. -/
theorem c6_counterexample :
    resolveSegment (.inl "-1") 0
      (some "0x049d36570d4e46f48e99674bd3fcc84644ddd6b96f7c741b1562b82f9e004dc7")
      none (fun _ => none) =
      some ("0x049d36570d4e46f48e99674bd3fcc84644ddd6b96f7c741b1562b82f9e004dc7",
        -1) ∧
    (-1 : ℤ) < 0 := by
  refine ⟨?_, by norm_num⟩
  have h := amountToWei_negOne 0 (by norm_num)
  norm_num at h
  rw [resolveSegment, h]

/-- C6, amended: the try-block performs no negativity or cap check and
raises no typed `ConversionError`.  A non-finite amount (`NaN`) makes
the `BigInt` conversion throw — an untyped error swallowed by the
generic `catch`, so no resolved transfer — while a negative amount flows
straight through and produces a resolved transfer with negative minor
units (shown for decimals up to 15, where the scaled integer is exact);
at decimals 21 and 22 the scaled double prints in exponential notation,
`BigInt` throws, and the error path again swallows it. -/
theorem c6_amended_no_conversion_error (d : ℕ) (hd : d ≤ 15) (r : String)
    (sn : Option String) (f : String → Option String) :
    resolveSegment (.inr .nan) d (some r) sn f = none ∧
    resolveSegment (.inl "-1") d (some r) sn f = some (r, -(10 ^ d)) ∧
    (-(10 ^ d) : ℤ) < 0 ∧
    resolveSegment (.inl "-1") 21 (some r) sn f = none ∧
    resolveSegment (.inl "-1") 22 (some r) sn f = none := by
  refine ⟨?_, ?_, ?_, ?_, ?_⟩
  · have hjs : ∀ b, jsMul .nan b = .nan := fun b => by cases b <;> rfl
    have hn : amountToWei (.inr .nan) d = none := by
      rw [amountToWei]
      simp only [toNumber]
      rw [hjs]
      rfl
    rw [resolveSegment, hn]
  · rw [resolveSegment, amountToWei_negOne d hd]
  · have h : (0 : ℤ) < 10 ^ d := by positivity
    omega
  · rw [resolveSegment, amountToWei_negOne_exp 21 (by norm_num) (by norm_num)]
  · rw [resolveSegment, amountToWei_negOne_exp 22 (by norm_num) (by norm_num)]

theorem c6_witness :
    resolveSegment (.inr .nan) 0 (some "a") none (fun _ => none) = none ∧
    resolveSegment (.inl "-1") 0 (some "a") none (fun _ => none) =
      some ("a", -1) := by
  have h := c6_amended_no_conversion_error 0 (by norm_num) "a" none
    (fun _ => none)
  refine ⟨h.1, ?_⟩
  have h2 := h.2.1
  norm_num at h2
  exact h2

/-- C7, counterexample: the amount `"0.295"` with `d = 2` converts to
minor units 29; the quotient `29 / 10^2` (the decimal numeral `"0.29"`)
re-converted forward yields 28, not 29 — the code's floating-point
conversion is not idempotent under the claimed round trip. -/
theorem c7_counterexample :
    amountToWei (.inl "0.295") 2 = some 29 ∧
    parseDecimal "0.29" = some ((29 : ℚ) / 10 ^ 2) ∧
    amountToWei (.inl "0.29") 2 = some 28 ∧
    (28 : ℤ) ≠ 29 := by
  have hpa : parseNumeral "0.295" = some ⟨false, 0, 295, 3⟩ := by decide
  have hpb : parseNumeral "0.29" = some ⟨false, 0, 29, 2⟩ := by decide
  refine ⟨?_, ?_, ?_, by norm_num⟩
  · have htn : toNumber (.inl "0.295") = fl ((295 : ℚ) / 10 ^ 3) := by
      rw [toNumber, jsNumberOfString, parseDecimal, hpa]
      simp only [Option.map_some']
      norm_num [numeralVal]
    have hfl1 : fl ((295 : ℚ) / 10 ^ 3) =
        .finite ((5314247560297185 : ℚ) * (2 : ℚ) ^ (-54 : ℤ)) := by
      have h := fl_eval_pos (q := (295 : ℚ) / 10 ^ 3) (e := -2)
        (m := 5314247560297185) (by norm_num) (by norm_num) (by norm_num)
        (by norm_num) (roundNE_of_floor_lt (by norm_num) (by norm_num))
        (by rw [abs_of_pos (by norm_num)]; norm_num)
      rw [h]
      norm_num
    have hrm : roundNE ((5314247560297185 : ℚ) * (2 : ℚ) ^ (-54 : ℤ)
        * (10 : ℚ) ^ 2 * (2 : ℚ) ^ ((52 : ℤ) - 4)) = 8303511812964352 := by
      exact (roundNE_of_floor_gt (f := 8303511812964351) (by norm_num)
        (by norm_num)).trans (by norm_num)
    have hfl2 : fl ((5314247560297185 : ℚ) * (2 : ℚ) ^ (-54 : ℤ)
        * (10 : ℚ) ^ 2) =
        .finite ((8303511812964352 : ℚ) * (2 : ℚ) ^ ((4 : ℤ) - 52)) := by
      exact fl_eval_pos
        (q := (5314247560297185 : ℚ) * (2 : ℚ) ^ (-54 : ℤ) * (10 : ℚ) ^ 2)
        (e := 4) (m := 8303511812964352) (by norm_num) (by norm_num)
        (by norm_num) (by norm_num) hrm
        (by rw [abs_of_pos (by norm_num)]; norm_num)
    have hfloor : ⌊(8303511812964352 : ℚ) * (2 : ℚ) ^ ((4 : ℤ) - 52)⌋ =
        (29 : ℤ) := by norm_num
    rw [amountToWei, htn, hfl1, jsPow10_exact (by norm_num)]
    simp only [jsMul]
    rw [hfl2, mathFloor_finite, hfloor, toBigInt_intCast _ (by norm_num)]
  · rw [parseDecimal, hpb]
    simp only [Option.map_some']
    norm_num [numeralVal]
  · have htn : toNumber (.inl "0.29") = fl ((29 : ℚ) / 10 ^ 2) := by
      rw [toNumber, jsNumberOfString, parseDecimal, hpb]
      simp only [Option.map_some']
      norm_num [numeralVal]
    have hfl1 : fl ((29 : ℚ) / 10 ^ 2) =
        .finite ((5224175567749775 : ℚ) * (2 : ℚ) ^ (-54 : ℤ)) := by
      have h := fl_eval_pos (q := (29 : ℚ) / 10 ^ 2) (e := -2)
        (m := 5224175567749775) (by norm_num) (by norm_num) (by norm_num)
        (by norm_num) (roundNE_of_floor_lt (by norm_num) (by norm_num))
        (by rw [abs_of_pos (by norm_num)]; norm_num)
      rw [h]
      norm_num
    have hrm : roundNE ((5224175567749775 : ℚ) * (2 : ℚ) ^ (-54 : ℤ)
        * (10 : ℚ) ^ 2 * (2 : ℚ) ^ ((52 : ℤ) - 4)) = 8162774324609023 := by
      exact roundNE_of_floor_lt (by norm_num) (by norm_num)
    have hfl2 : fl ((5224175567749775 : ℚ) * (2 : ℚ) ^ (-54 : ℤ)
        * (10 : ℚ) ^ 2) =
        .finite ((8162774324609023 : ℚ) * (2 : ℚ) ^ ((4 : ℤ) - 52)) := by
      exact fl_eval_pos
        (q := (5224175567749775 : ℚ) * (2 : ℚ) ^ (-54 : ℤ) * (10 : ℚ) ^ 2)
        (e := 4) (m := 8162774324609023) (by norm_num) (by norm_num)
        (by norm_num) (by norm_num) hrm
        (by rw [abs_of_pos (by norm_num)]; norm_num)
    have hfloor : ⌊(8162774324609023 : ℚ) * (2 : ℚ) ^ ((4 : ℤ) - 52)⌋ =
        (28 : ℤ) := by norm_num
    rw [amountToWei, htn, hfl1, jsPow10_exact (by norm_num)]
    simp only [jsMul]
    rw [hfl2, mathFloor_finite, hfloor, toBigInt_intCast _ (by norm_num)]

/-- C7, amended: under the spec's exact decimal arithmetic the round
trip does hold — re-converting the quotient `m / 10^d` forward yields
`m` again for every integer `m`; it is the code's floating-point
conversion that violates it. -/
theorem c7_amended_exact_roundtrip (m : ℤ) (d : ℕ) :
    exactMinorUnits ((m : ℚ) / 10 ^ d) d = m := by
  rw [exactMinorUnits, div_mul_cancel₀, Int.floor_intCast]
  positivity

theorem c9_witness :
    handler "happy new year" ⟨none, none, none, none⟩ (.finite 1) 0
      (fun _ => none) = .noRecipient ∧
    firstHexMatch
      "0x049d36570d4e46f48e99674bd3fcc84644ddd6b96f7c741b1562b82f9e004dc7" =
      some "0x049d36570d4e46f48e99674bd3fcc84644ddd6b96f7c741b1562b82f9e004dc7" := by
  constructor
  · exact (c9_regex_gate "happy new year" ⟨none, none, none, none⟩ none
      (.finite 1) 0 (fun _ => none)).2.1 (by decide)
  · have haw : amountToWei (.inr (.finite (1 : ℚ))) 0 = some 1 := by
      have h := amountToWei_intCast 1 0 (by norm_num) (by norm_num)
      have hc : ((1 : ℤ) : ℚ) = (1 : ℚ) := by norm_num
      rw [hc] at h
      simpa using h
    have hfm : firstHexMatch
        "0x049d36570d4e46f48e99674bd3fcc84644ddd6b96f7c741b1562b82f9e004dc7" =
        some "0x049d36570d4e46f48e99674bd3fcc84644ddd6b96f7c741b1562b82f9e004dc7" := by
      decide
    have hv : isTransferContent
        ⟨some strkTokenAddress,
         some "0x049d36570d4e46f48e99674bd3fcc84644ddd6b96f7c741b1562b82f9e004dc7",
         none, some (.inr (.finite 1))⟩ = true := by decide
    have hh : handler
        "0x049d36570d4e46f48e99674bd3fcc84644ddd6b96f7c741b1562b82f9e004dc7"
        ⟨none, none, none, none⟩ (.finite 1) 0 (fun _ => none) =
        .transferred
          "0x049d36570d4e46f48e99674bd3fcc84644ddd6b96f7c741b1562b82f9e004dc7"
          1 strkTokenAddress := by
      rw [handler, hfm]
      simp only [hv, Bool.not_true]
      rw [if_neg (by norm_num)]
      rw [resolveSegment, haw]
    exact (c9_regex_gate
      "0x049d36570d4e46f48e99674bd3fcc84644ddd6b96f7c741b1562b82f9e004dc7"
      ⟨none, none, none, none⟩ none (.finite 1) 0 (fun _ => none)).2.2 _ _ _ hh

end StarknetTransfer
